import Mathlib

/-!
Verification of the CV Builder rendering engine.

This file gives a shallow embedding of the two rendering source files of the
repository (the `TextProcessor` utility class and the `CVRenderer` class) and
proves or refutes the frozen claims about them.

Modelling conventions:
* JavaScript strings are Lean `String`s (lists of unicode scalar values).
* A possibly-absent (`undefined`) value is an `Option`.
* A JS object used as a language map is an association list in insertion
  order with distinct keys; property access takes the first matching key.
* JS truthiness of a string is non-emptiness; an object is always truthy.
* The DOM is modelled by the inductive `Node`; `textContent` assignment is a
  `Node.text` child, `innerHTML` assignment a `Node.raw` child, attributes
  (including `className`, `id`, `href`, `title`) are an association list in
  assignment order.
* Regex global replacement is modelled by a left-to-right scan that, after a
  match, resumes after the replaced region, exactly like `String.replace`
  with a `g` flag.  The two markup patterns have no backtracking freedom
  (their content class excludes the apostrophe delimiter), so the scan is
  an exact model.
* `String.prototype.toLowerCase` is modelled on its ASCII fragment
  (`Char.toLower`); every character the slug pipeline can keep is ASCII.
-/

/-! ## Characters and JS whitespace -/

/-- Left curly brace (written by code point to keep brace characters out of
string literals). -/
def lb : Char := Char.ofNat 123

/-- Right curly brace. -/
def rb : Char := Char.ofNat 125

/-- Apostrophe, the content delimiter of the inline markup patterns. -/
def apos : Char := Char.ofNat 39

/-- The code points matched by the JS regex class `\s` (also the set trimmed
by `String.prototype.trim`, up to the BOM which `\s` matches as well). -/
def jsWsCodes : List Nat :=
  [9, 10, 11, 12, 13, 32, 160, 5760, 8192, 8193, 8194, 8195, 8196, 8197,
   8198, 8199, 8200, 8201, 8202, 8232, 8233, 8239, 8287, 12288, 65279]

/-- JS whitespace predicate (`\s`). -/
def isJsWs (c : Char) : Bool := decide (c.toNat ∈ jsWsCodes)

/-- Characters kept by `generateId`'s first substitution, the complement of
`[^a-z0-9\s-]`: lowercase ASCII letters, ASCII digits, JS whitespace and
the hyphen. -/
def keepChar (c : Char) : Bool :=
  decide ((97 ≤ c.toNat ∧ c.toNat ≤ 122) ∨ (48 ≤ c.toNat ∧ c.toNat ≤ 57)) ||
  isJsWs c || decide (c.toNat = 45)

/-- Replace every maximal run of characters satisfying `p` by the single
character `r`; models `.replace(/X+/g, "r")` for a character class `X`.
The flag is true while inside a run already replaced. -/
def squash (p : Char → Bool) (r : Char) : Bool → List Char → List Char
  | _, [] => []
  | inRun, c :: cs =>
    if p c then
      if inRun then squash p r true cs else r :: squash p r true cs
    else c :: squash p r false cs

/-- `String.prototype.trim`: drop JS whitespace from both ends. -/
def jsTrim (cs : List Char) : List Char :=
  ((cs.dropWhile isJsWs).reverse.dropWhile isJsWs).reverse

/-- `CVRenderer.generateId`: lowercase, strip `[^a-z0-9\s-]`, replace
whitespace runs by a hyphen, collapse hyphen runs, then `trim()`.
A falsy (empty) input returns the empty string. -/
def generateId (text : String) : String :=
  if text = "" then ""
  else
    String.mk (jsTrim
      (squash (fun c => decide (c.toNat = 45)) '-' false
        (squash isJsWs '-' false
          ((text.toList.map Char.toLower).filter keepChar))))

/-! ## Localized text (`TextProcessor.getLocalizedText`) -/

/-- A `LocalizedText` value: either a plain string or a language map,
modelled as an association list in insertion order. -/
inductive LocalizedText where
  | str (s : String)
  | map (entries : List (String × String))

/-- JS property access on a language map: first entry with the given key. -/
def mapGet (entries : List (String × String)) (k : String) : Option String :=
  match entries with
  | [] => none
  | (k0, v0) :: rest => if k0 = k then some v0 else mapGet rest k

/-- The value of the first key of a language map (`Object.keys(...)[0]`),
empty string when the map is empty (the function's final `return ""`). -/
def firstVal : List (String × String) → String
  | [] => ""
  | (_, v) :: _ => v

/-- `TextProcessor.getLocalizedText`: falsy input gives `""`; a string is
returned as is; for a map, `localizedText[language]` is returned when
truthy (non-empty), otherwise the value of the first key, otherwise `""`. -/
def getLocalizedText : Option LocalizedText → String → String
  | none, _ => ""
  | some (LocalizedText.str s), _ => s
  | some (LocalizedText.map entries), lang =>
    match mapGet entries lang with
    | some t => if t = "" then firstVal entries else t
    | none => firstVal entries

/-- JS truthiness of an optional `LocalizedText` field: absent and the empty
string are falsy; any object (even an empty map) is truthy. -/
def ltTruthy : Option LocalizedText → Bool
  | none => false
  | some (LocalizedText.str s) => decide (s ≠ "")
  | some (LocalizedText.map _) => true

/-! ## Inline markup (`TextProcessor.processText`) -/

/-- The opening delimiter of the bold pattern (the literal characters
brace brace `bold(` apostrophe). -/
def boldOpen : List Char := [lb, lb, 'b', 'o', 'l', 'd', '(', apos]

/-- The opening delimiter of the underline pattern. -/
def underlineOpen : List Char :=
  [lb, lb, 'u', 'n', 'd', 'e', 'r', 'l', 'i', 'n', 'e', '(', apos]

/-- The closing delimiter shared by both patterns (apostrophe, parenthesis,
brace, brace). -/
def closeMark : List Char := [apos, ')', rb, rb]

/-- Does the second list start with the first? -/
def startsWithChars : List Char → List Char → Bool
  | [], _ => true
  | _ :: _, [] => false
  | k :: ks, c :: cs => (k == c) && startsWithChars ks cs

/-- Try to match one markup occurrence at the head of `cs`: the opening
delimiter `kw`, then a non-empty run of non-apostrophe characters (the
regex group `([^']+)`), then the closing delimiter.  Returns the content
and the remainder after the match. -/
def matchMarkup (kw : List Char) (cs : List Char) :
    Option (List Char × List Char) :=
  if startsWithChars kw cs then
    let after := cs.drop kw.length
    let content := after.takeWhile (fun c => c != apos)
    let rest := after.dropWhile (fun c => c != apos)
    if content.isEmpty then none
    else if startsWithChars closeMark rest then
      some (content, rest.drop closeMark.length)
    else none
  else none

/-- Global regex replacement scan: at each position try the pattern; on a
match emit `pre ++ content ++ post` and resume after the match.  The fuel
is an upper bound on the remaining length (the wrapper passes the exact
length, so the fuel never runs out). -/
def replaceMarkupGo (kw pre post : List Char) : Nat → List Char → List Char
  | _, [] => []
  | 0, cs => cs
  | fuel + 1, c :: cs =>
    match matchMarkup kw (c :: cs) with
    | some (content, rest) =>
      pre ++ content ++ post ++ replaceMarkupGo kw pre post fuel rest
    | none => c :: replaceMarkupGo kw pre post fuel cs

/-- One `.replace(pattern, template)` pass over a full string. -/
def replaceMarkup (kw pre post : List Char) (cs : List Char) : List Char :=
  replaceMarkupGo kw pre post cs.length cs

/-- The bold pass of `TextProcessor.processText`. -/
def applyBold (s : String) : String :=
  String.mk (replaceMarkup boldOpen "<strong>".toList "</strong>".toList s.toList)

/-- The underline pass of `TextProcessor.processText`. -/
def applyUnderline (s : String) : String :=
  String.mk (replaceMarkup underlineOpen "<u>".toList "</u>".toList s.toList)

/-- `TextProcessor.processText`: falsy input gives `""`; otherwise the bold
substitution is applied first, then the underline substitution. -/
def processText (s : String) : String :=
  if s = "" then "" else applyUnderline (applyBold s)

/-! ## Helper lemmas -/

theorem mapGet_eq_lookup (k : String) (es : List (String × String)) :
    mapGet es k = List.lookup k es := by
  induction es with
  | nil => rfl
  | cons e rest ih =>
    obtain ⟨k0, v0⟩ := e
    by_cases h : k0 = k
    · subst h; simp [mapGet, List.lookup]
    · have h2 : (k == k0) = false :=
        beq_eq_false_iff_ne.mpr (fun hk => h hk.symm)
      simp [mapGet, List.lookup, h, h2, ih]

theorem squash_mem {p : Char → Bool} {r : Char} :
    ∀ (inRun : Bool) (cs : List Char) (c : Char),
      c ∈ squash p r inRun cs → c = r ∨ (c ∈ cs ∧ p c = false) := by
  intro inRun cs
  induction cs generalizing inRun with
  | nil => intro c h; simp [squash] at h
  | cons x xs ih =>
    intro c h
    by_cases hx : p x = true
    · cases inRun with
      | true =>
        simp only [squash, hx, if_true] at h
        rcases ih true c h with h1 | ⟨h2, h3⟩
        · exact Or.inl h1
        · exact Or.inr ⟨List.mem_cons_of_mem x h2, h3⟩
      | false =>
        simp only [squash, hx, if_true] at h
        rcases List.mem_cons.mp h with h1 | h1
        · exact Or.inl h1
        · rcases ih true c h1 with h2 | ⟨h3, h4⟩
          · exact Or.inl h2
          · exact Or.inr ⟨List.mem_cons_of_mem x h3, h4⟩
    · have hx' : p x = false := by
        cases hpx : p x
        · rfl
        · exact absurd hpx hx
      simp only [squash, hx', Bool.false_eq_true, if_false] at h
      rcases List.mem_cons.mp h with h1 | h1
      · subst h1; exact Or.inr ⟨List.mem_cons_self c xs, hx'⟩
      · rcases ih false c h1 with h2 | ⟨h3, h4⟩
        · exact Or.inl h2
        · exact Or.inr ⟨List.mem_cons_of_mem x h3, h4⟩

theorem dropWhile_eq_self_of_none {p : Char → Bool} {cs : List Char}
    (h : ∀ c ∈ cs, p c = false) : cs.dropWhile p = cs := by
  cases cs with
  | nil => rfl
  | cons x xs =>
    have := h x (List.mem_cons_self x xs)
    simp [List.dropWhile, this]

theorem jsTrim_eq_self {cs : List Char}
    (h : ∀ c ∈ cs, isJsWs c = false) : jsTrim cs = cs := by
  unfold jsTrim
  rw [dropWhile_eq_self_of_none h]
  rw [dropWhile_eq_self_of_none (by intro c hc; exact h c (List.mem_reverse.mp hc))]
  exact List.reverse_reverse cs

/-- Characters kept by the slug pipeline but outside the whitespace class
are lowercase letters, digits or the hyphen. -/
theorem keep_not_ws {c : Char} (hk : keepChar c = true) (hw : isJsWs c = false) :
    (97 ≤ c.toNat ∧ c.toNat ≤ 122) ∨ (48 ≤ c.toNat ∧ c.toNat ≤ 57) ∨ c.toNat = 45 := by
  unfold keepChar at hk
  rcases Bool.or_eq_true_iff.mp hk with h1 | h2
  · rcases Bool.or_eq_true_iff.mp h1 with h3 | h4
    · rcases of_decide_eq_true h3 with h | h
      · exact Or.inl h
      · exact Or.inr (Or.inl h)
    · rw [h4] at hw; exact absurd hw (by simp)
  · exact Or.inr (Or.inr (of_decide_eq_true h2))

/-- Lowercase letters, digits and the hyphen are not JS whitespace. -/
theorem alnum_hyphen_not_ws {c : Char}
    (h : (97 ≤ c.toNat ∧ c.toNat ≤ 122) ∨ (48 ≤ c.toNat ∧ c.toNat ≤ 57) ∨ c.toNat = 45) :
    isJsWs c = false := by
  unfold isJsWs
  rw [decide_eq_false_iff_not]
  intro hmem
  simp only [jsWsCodes, List.mem_cons, List.not_mem_nil, or_false] at hmem
  rcases h with ⟨h1, h2⟩ | ⟨h1, h2⟩ | h1 <;> omega

/-- Every character of the squashed-and-filtered slug body is a lowercase
letter, digit or hyphen (in particular not whitespace). -/
theorem slugBody_chars {cs : List Char} {c : Char}
    (h : c ∈ squash (fun c => decide (c.toNat = 45)) '-' false
          (squash isJsWs '-' false (cs.filter keepChar))) :
    (97 ≤ c.toNat ∧ c.toNat ≤ 122) ∨ (48 ≤ c.toNat ∧ c.toNat ≤ 57) ∨ c.toNat = 45 := by
  rcases squash_mem false _ c h with h1 | ⟨h2, _⟩
  · subst h1; exact Or.inr (Or.inr rfl)
  · rcases squash_mem false _ c h2 with h3 | ⟨h4, h5⟩
    · subst h3; exact Or.inr (Or.inr rfl)
    · exact keep_not_ws (List.of_mem_filter h4) h5

/-- Auxiliary predicate: no two adjacent hyphens. -/
def noDD : List Char → Bool
  | [] => true
  | [_] => true
  | a :: b :: rest => !(a == '-' && b == '-') && noDD (b :: rest)

theorem squash_hyphen_head :
    ∀ cs : List Char,
      (squash (fun c => decide (c.toNat = 45)) '-' true cs).head? ≠ some '-' := by
  intro cs
  induction cs with
  | nil => simp [squash]
  | cons x xs ih =>
    by_cases hx : x.toNat = 45
    · simpa [squash, hx] using ih
    · have hx' : decide (x.toNat = 45) = false := decide_eq_false hx
      simp only [squash, hx', Bool.false_eq_true, if_false, List.head?]
      intro hc
      have : x = '-' := by injection hc
      subst this
      exact hx rfl

theorem squash_hyphen_noDD :
    ∀ (cs : List Char) (inRun : Bool),
      noDD (squash (fun c => decide (c.toNat = 45)) '-' inRun cs) = true := by
  intro cs
  induction cs with
  | nil => intro inRun; simp [squash, noDD]
  | cons x xs ih =>
    intro inRun
    by_cases hx : x.toNat = 45
    · have hd : decide (x.toNat = 45) = true := decide_eq_true hx
      cases inRun with
      | true => simpa [squash, hd] using ih true
      | false =>
        simp only [squash, hd, if_true]
        have hh := squash_hyphen_head xs
        cases hq : squash (fun c => decide (c.toNat = 45)) '-' true xs with
        | nil => simp [noDD]
        | cons y ys =>
          rw [hq] at hh
          have hy : y ≠ '-' := by
            intro h; subst h; exact hh rfl
          have : (y == '-') = false := beq_eq_false_iff_ne.mpr hy
          have ihq := ih true
          rw [hq] at ihq
          simp [noDD, this, ihq]
    · have hx' : decide (x.toNat = 45) = false := decide_eq_false hx
      simp only [squash, hx', Bool.false_eq_true, if_false]
      have hxh : (x == '-') = false := by
        apply beq_eq_false_iff_ne.mpr
        intro h; subst h; exact hx rfl
      cases hq : squash (fun c => decide (c.toNat = 45)) '-' false xs with
      | nil => simp [noDD]
      | cons y ys =>
        have ihq := ih false
        rw [hq] at ihq
        simp [noDD, hxh, ihq]

/-- The slug pipeline's final `trim()` is a no-op: no whitespace survives
the whitespace-to-hyphen substitution. -/
theorem generateId_eq_body (s : String) (hs : ¬ s = "") :
    generateId s =
      String.mk (squash (fun c => decide (c.toNat = 45)) '-' false
        (squash isJsWs '-' false
          ((s.toList.map Char.toLower).filter keepChar))) := by
  unfold generateId
  rw [if_neg hs]
  congr 1
  apply jsTrim_eq_self
  intro c hc
  exact alnum_hyphen_not_ws (slugBody_chars hc)

/-- A no-markup scan pass is the identity: the opening delimiter starts with
a left brace, so no match can begin at a brace-free position. -/
theorem replaceMarkupGo_no_lb {kw pre post : List Char}
    (hkw : kw.head? = some lb) :
    ∀ (fuel : Nat) (cs : List Char), (∀ c ∈ cs, c ≠ lb) →
      replaceMarkupGo kw pre post fuel cs = cs := by
  intro fuel
  induction fuel with
  | zero => intro cs _; cases cs <;> rfl
  | succ f ih =>
    intro cs h
    cases cs with
    | nil => rfl
    | cons c cs' =>
      have hc : c ≠ lb := h c (List.mem_cons_self c cs')
      have hm : matchMarkup kw (c :: cs') = none := by
        unfold matchMarkup
        have hsw : startsWithChars kw (c :: cs') = false := by
          cases kw with
          | nil => simp [List.head?] at hkw
          | cons k ks =>
            have hk : k = lb := by
              simp [List.head?] at hkw; exact hkw
            subst hk
            simp only [startsWithChars, Bool.and_eq_false_iff]
            left
            exact beq_eq_false_iff_ne.mpr (fun h' => hc h'.symm)
        simp [hsw]
      simp only [replaceMarkupGo, hm]
      rw [ih cs' (fun d hd => h d (List.mem_cons_of_mem c hd))]

theorem applyBold_no_lb {s : String} (h : ∀ c ∈ s.toList, c ≠ lb) :
    applyBold s = s := by
  unfold applyBold replaceMarkup
  rw [replaceMarkupGo_no_lb (by decide) s.toList.length s.toList h]
  cases s; rfl

theorem applyUnderline_no_lb {s : String} (h : ∀ c ∈ s.toList, c ≠ lb) :
    applyUnderline s = s := by
  unfold applyUnderline replaceMarkup
  rw [replaceMarkupGo_no_lb (by decide) s.toList.length s.toList h]
  cases s; rfl

theorem processText_no_lb {s : String} (h : ∀ c ∈ s.toList, c ≠ lb) :
    processText s = s := by
  unfold processText
  by_cases hs : s = ""
  · simp [hs]
  · rw [if_neg hs, applyBold_no_lb h, applyUnderline_no_lb h]

/-! ## Claim C1 -/

/-- C1 counterexample: in the mapping built from `fr` then `de` where the
value at key `de` is the empty string, resolving for language `de` does not
return `v[de]` (the empty string) as the claim states: the truthiness test
on `v[de]` fails and the first inserted key's value `"Bonjour"` is returned
instead. -/
theorem getLocalizedText_presentKey_emptyValue :
    List.lookup "de" [("fr", "Bonjour"), ("de", "")] = some "" ∧
    getLocalizedText (some (LocalizedText.map [("fr", "Bonjour"), ("de", "")])) "de"
      = "Bonjour" ∧
    ¬ getLocalizedText (some (LocalizedText.map [("fr", "Bonjour"), ("de", "")])) "de"
      = "" := by
  refine ⟨by decide, by decide, by decide⟩

/-- C1 (amended): `getLocalizedText` always returns a string; a plain string
is returned verbatim regardless of the language; a mapping returns `v[L]`
when the key `L` is present with a non-empty value, and otherwise (key
absent, or its value empty) the value of the first key in insertion order;
an absent value or an empty mapping yields the empty string. -/
theorem getLocalizedText_resolution :
    (∀ (lang s : String), getLocalizedText (some (LocalizedText.str s)) lang = s) ∧
    (∀ lang : String, getLocalizedText none lang = "") ∧
    (∀ lang : String, getLocalizedText (some (LocalizedText.map [])) lang = "") ∧
    (∀ (lang : String) (entries : List (String × String)) (t : String),
       List.lookup lang entries = some t → t ≠ "" →
       getLocalizedText (some (LocalizedText.map entries)) lang = t) ∧
    (∀ (lang k v : String) (rest : List (String × String)),
       (List.lookup lang ((k, v) :: rest) = none ∨
        List.lookup lang ((k, v) :: rest) = some "") →
       getLocalizedText (some (LocalizedText.map ((k, v) :: rest))) lang = v) := by
  refine ⟨fun _ _ => rfl, fun _ => rfl, fun _ => rfl, ?_, ?_⟩
  · intro lang entries t hl ht
    simp only [getLocalizedText]
    rw [mapGet_eq_lookup, hl]
    simp [ht]
  · intro lang k v rest h
    simp only [getLocalizedText]
    rw [mapGet_eq_lookup]
    rcases h with h | h <;> simp [h, firstVal]

/-- C1 witness: the spec's own fallback example, resolved through the
amended theorem. -/
theorem getLocalizedText_resolution_witness :
    getLocalizedText (some (LocalizedText.map [("fr", "Bonjour"), ("es", "Hola")])) "de"
      = "Bonjour" :=
  getLocalizedText_resolution.2.2.2.2 "de" "fr" "Bonjour" [("es", "Hola")]
    (Or.inl (by decide))

/-! ## Claim C2 -/

/-- C2 counterexample: the final `trim()` removes whitespace, not hyphens,
and after the whitespace substitution no whitespace remains, so a
whitespace-only input yields `"-"`, not the empty string the claim
states. -/
theorem generateId_whitespaceOnly :
    generateId "  " = "-" ∧ ¬ generateId "  " = "" := by
  refine ⟨by decide, by decide⟩

/-- C2 (amended): `generateId` lowercases, strips every character outside
lowercase letters, digits, whitespace and hyphen, collapses whitespace runs
to a single hyphen, collapses hyphen runs to one, and finally trims
leading/trailing whitespace — a no-op at that stage, so leading/trailing
hyphens remain: `generateId "Work Experience!!" = "work-experience"`,
`generateId "  " = "-"` (not empty), `generateId "A -- B" = "a-b"`; empty
and fully-stripped inputs yield the empty string; every output character is
a lowercase letter, a digit or a hyphen, and no two adjacent hyphens ever
survive. -/
theorem generateId_spec :
    generateId "Work Experience!!" = "work-experience" ∧
    generateId "  " = "-" ∧
    generateId "A -- B" = "a-b" ∧
    generateId "!!!" = "" ∧
    generateId "" = "" ∧
    (∀ s : String, ∀ c ∈ (generateId s).toList,
       (97 ≤ c.toNat ∧ c.toNat ≤ 122) ∨ (48 ≤ c.toNat ∧ c.toNat ≤ 57) ∨
       c.toNat = 45) ∧
    (∀ s : String, noDD (generateId s).toList = true) := by
  refine ⟨by decide, by decide, by decide, by decide, by decide, ?_, ?_⟩
  · intro s c hc
    by_cases hs : s = ""
    · subst hs; simp [generateId] at hc
    · rw [generateId_eq_body s hs] at hc
      exact slugBody_chars hc
  · intro s
    by_cases hs : s = ""
    · subst hs; decide
    · rw [generateId_eq_body s hs]
      exact squash_hyphen_noDD _ false

/-- C2 witness: the character-set clause of the amended theorem applied to a
concrete slug. -/
theorem generateId_spec_witness :
    (97 ≤ 'w'.toNat ∧ 'w'.toNat ≤ 122) ∨ (48 ≤ 'w'.toNat ∧ 'w'.toNat ≤ 57) ∨
    'w'.toNat = 45 :=
  generateId_spec.2.2.2.2.2.1 "Work Experience!!" 'w' (by decide)

/-! ## Claim C4 -/

/-- Nested bold markup: the literal text brace brace `bold('` brace brace
`bold('a')` brace brace `')` brace brace. -/
def nestedBold : String :=
  String.mk (boldOpen ++ boldOpen ++ ['a'] ++ closeMark ++ closeMark)

/-- C4 counterexample: `processText` is not idempotent.  On nested bold
markup the first pass substitutes only the inner occurrence, producing a
string that matches the bold pattern again, so a second pass double-wraps. -/
theorem processText_not_idempotent :
    ¬ processText (processText nestedBold) = processText nestedBold := by
  decide

/-- C4 (amended): a second application of `processText` is a no-op on every
string containing no left-brace character (then neither pattern can match
and both passes are the identity); it is not a no-op in general, because
nested markup is substituted innermost-first and the first pass's output
can match the delimiter pattern again. -/
theorem processText_idempotent_on_plain :
    ∀ s : String, (∀ c ∈ s.toList, c ≠ lb) →
      processText (processText s) = processText s := by
  intro s h
  rw [processText_no_lb h, processText_no_lb h]

/-- C4 witness: idempotence on a concrete brace-free string. -/
theorem processText_idempotent_on_plain_witness :
    processText (processText "hello world") = processText "hello world" :=
  processText_idempotent_on_plain "hello world" (by decide)

/-! ## Claim C5 -/

/-- Nested mixed markup: an underline wrapper whose content is a bold
occurrence. -/
def nestedMix : String :=
  String.mk (underlineOpen ++ boldOpen ++ ['a'] ++ closeMark ++ closeMark)

/-- C5 counterexample: the bold and underline substitutions are not
order-independent.  On an underline wrapper containing a bold occurrence,
applying bold first (the code's order) substitutes the inner bold and then
the outer underline; applying underline first leaves the outer pattern
unmatched (its content region contains apostrophes) and only the inner bold
is ever substituted. -/
theorem markup_passes_not_commutative :
    ¬ applyUnderline (applyBold nestedMix) = applyBold (applyUnderline nestedMix) := by
  decide

/-- C5 (amended): the bold and underline substitution passes of
`processText` commute on every string containing no left-brace character
(both passes are then the identity); they are not order-independent in
general: when one pattern's content contains the other pattern, the order
of the two passes changes the result, and the code fixes the order as bold
first, then underline. -/
theorem markup_passes_commute_on_plain :
    ∀ s : String, (∀ c ∈ s.toList, c ≠ lb) →
      applyUnderline (applyBold s) = applyBold (applyUnderline s) := by
  intro s h
  rw [applyBold_no_lb h, applyUnderline_no_lb h, applyBold_no_lb h]

/-- C5 witness: commutation on a concrete brace-free string. -/
theorem markup_passes_commute_on_plain_witness :
    applyUnderline (applyBold "plain") = applyBold (applyUnderline "plain") :=
  markup_passes_commute_on_plain "plain" (by decide)

/-! ## The presentational tree and the block model (`CVRenderer`) -/

/-- A presentational node.  `text` is a `textContent` assignment, `raw` an
`innerHTML` assignment (unparsed markup). -/
inductive Node where
  | elem (tag : String) (attrs : List (String × String)) (children : List Node)
  | text (s : String)
  | raw (s : String)

/-- Contact data: three optional `LocalizedText` fields. -/
structure Contact where
  email : Option LocalizedText
  phone : Option LocalizedText
  location : Option LocalizedText

/-!
A typed content block.  `sect`/`subsect` stand for the source's
`section`/`subsection` types (`section` is a Lean keyword); their child
sequence merges the JS absent/non-array case with the empty array, which
render identically (the guarded `forEach` simply runs zero times).
`unknown t` is a block whose `type` string `t` is none of the seven
recognized values; `t = ""` models a missing/falsy `type`.
-/
mutual
inductive Block where
  | header (name : Option LocalizedText) (title : Option LocalizedText)
      (contact : Option Contact)
  | heading (text : Option LocalizedText) (level : Option Nat)
  | paragraph (text : Option LocalizedText)
  | sect (title : Option LocalizedText) (blocks : BlockSeq)
  | subsect (title : Option LocalizedText) (blocks : BlockSeq)
  | list (title : Option LocalizedText) (items : Option (List LocalizedText))
  | divider
  | unknown (t : String)

inductive BlockSeq where
  | nil
  | cons (b : Block) (bs : BlockSeq)
end

/-- Concatenation of block sequences. -/
def BlockSeq.append : BlockSeq → BlockSeq → BlockSeq
  | BlockSeq.nil, ys => ys
  | BlockSeq.cons b bs, ys => BlockSeq.cons b (BlockSeq.append bs ys)

/-- First attribute with the given name (`setAttribute` never repeats a name
in this code). -/
def attrsGet (name : String) : List (String × String) → Option String
  | [] => none
  | (k, v) :: rest => if k = name then some v else attrsGet name rest

/-- Attribute lookup on a node. -/
def attrGet (name : String) : Node → Option String
  | Node.elem _ attrs _ => attrsGet name attrs
  | _ => none

/-- Children of a node. -/
def nodeChildren : Node → List Node
  | Node.elem _ _ cs => cs
  | _ => []

/-- `TextProcessor.createElement`: resolve, apply markup, assign the result
as `innerHTML`, then set the attributes. -/
def createElem (tag : String) (lt : Option LocalizedText) (lang : String)
    (attrs : List (String × String)) : Node :=
  Node.elem tag attrs [Node.raw (processText (getLocalizedText lt lang))]

/-- The contact entries pushed by `CVRenderer.renderContact`: a field is
pushed when the field itself is truthy and its resolved text is truthy. -/
def contactItems (lang : String) (c : Contact) : List String :=
  (if ltTruthy c.email then
     (if getLocalizedText c.email lang = "" then []
      else ["Email: " ++ getLocalizedText c.email lang])
   else []) ++
  (if ltTruthy c.phone then
     (if getLocalizedText c.phone lang = "" then []
      else ["Phone: " ++ getLocalizedText c.phone lang])
   else []) ++
  (if ltTruthy c.location then
     (if getLocalizedText c.location lang = "" then []
      else ["Location: " ++ getLocalizedText c.location lang])
   else [])

/-- `CVRenderer.renderContact`: the entries joined by a separator into the
contact line. -/
def renderContact (lang : String) (c : Contact) : Node :=
  Node.elem "div" [("class", "cv-contact")]
    [Node.text (String.intercalate " | " (contactItems lang c))]

/-- `CVRenderer.renderHeader`. -/
def renderHeader (lang : String) (name title : Option LocalizedText)
    (contact : Option Contact) : Node :=
  Node.elem "div" [("class", "cv-header")]
    ((if ltTruthy name then [createElem "h1" name lang [("class", "cv-name")]]
      else []) ++
     (if ltTruthy title then [createElem "h2" title lang [("class", "cv-title")]]
      else []) ++
     (match contact with
      | none => []
      | some c => [renderContact lang c]))

/-- `CVRenderer.renderHeading`: `block.level || 1`, three weight classes. -/
def renderHeading (lang : String) (text : Option LocalizedText)
    (level : Option Nat) : Node :=
  let lvl := match level with
    | none => 1
    | some 0 => 1
    | some n => n
  let className :=
    if lvl = 1 then "cv-name"
    else if lvl = 2 then "cv-title"
    else if lvl = 3 then "cv-contact"
    else ""
  createElem ("h" ++ toString lvl) text lang [("class", className)]

/-- `CVRenderer.renderList`: optional title, then — whenever `items` is an
array, even an empty one — an unordered-list element with one entry per
item. -/
def renderList (lang : String) (title : Option LocalizedText)
    (items : Option (List LocalizedText)) : Node :=
  Node.elem "div" [("class", "cv-list")]
    ((if ltTruthy title then [createElem "div" title lang [("class", "list-title")]]
      else []) ++
     (match items with
      | none => []
      | some its =>
        [Node.elem "ul" [] (its.map (fun it => createElem "li" (some it) lang []))]))

/-- The attributes of a rendered section: the class, and the slug of the
resolved title as `id` when the title is truthy. -/
def sectAttrs (lang : String) (title : Option LocalizedText) :
    List (String × String) :=
  ("class", "cv-section") ::
    (if ltTruthy title then
       [("id", generateId (getLocalizedText title lang))]
     else [])

/-- The title element of a rendered section (when the title is truthy): an
`h2` whose children are the processed title markup and the appended hash
self-link with `href` the anchor and a tooltip naming the title. -/
def sectTitleNodes (lang : String) (title : Option LocalizedText) : List Node :=
  if ltTruthy title then
    [Node.elem "h2" [("class", "section-title")]
      [Node.raw (processText (getLocalizedText title lang)),
       Node.elem "a"
         [("href", "#" ++ generateId (getLocalizedText title lang)),
          ("class", "section-hash-link"),
          ("title", "Link to " ++ getLocalizedText title lang)]
         [Node.raw "#"]]]
  else []

/-- The title element of a rendered subsection (no anchor, no self-link). -/
def subsectTitleNodes (lang : String) (title : Option LocalizedText) : List Node :=
  if ltTruthy title then
    [createElem "h3" title lang [("class", "subsection-title")]]
  else []

/-!
`CVRenderer.renderBlock` and the `forEach` child loops of
`renderSection`/`renderSubsection`: dispatch on the block type; container
types recurse with the same dispatcher, appending each non-none rendered
child in order.  The second component of each result collects the
`console.warn` diagnostics.
-/
mutual
def renderBlock (lang : String) : Block → Option Node × List String
  | Block.header name title contact =>
    (some (renderHeader lang name title contact), [])
  | Block.heading text level => (some (renderHeading lang text level), [])
  | Block.paragraph text =>
    (some (createElem "p" text lang [("class", "cv-paragraph")]), [])
  | Block.sect title blocks =>
    (some (Node.elem "div" (sectAttrs lang title)
        (sectTitleNodes lang title ++ (renderChildren lang blocks).1)),
     (renderChildren lang blocks).2)
  | Block.subsect title blocks =>
    (some (Node.elem "div" [("class", "cv-subsection")]
        (subsectTitleNodes lang title ++ (renderChildren lang blocks).1)),
     (renderChildren lang blocks).2)
  | Block.list title items => (some (renderList lang title items), [])
  | Block.divider => (some (Node.elem "div" [("class", "cv-divider")] []), [])
  | Block.unknown t =>
    if t = "" then (none, []) else (none, ["Unknown block type: " ++ t])

def renderChildren (lang : String) : BlockSeq → List Node × List String
  | BlockSeq.nil => ([], [])
  | BlockSeq.cons b bs =>
    ((renderBlock lang b).1.toList ++ (renderChildren lang bs).1,
     (renderBlock lang b).2 ++ (renderChildren lang bs).2)
end

/-- One table-of-contents entry for a section title. -/
def tocItemNode (lang : String) (title : Option LocalizedText) : Node :=
  Node.elem "li" [("class", "toc-item")]
    [Node.elem "a"
       [("href", "#" ++ generateId (getLocalizedText title lang)),
        ("class", "toc-link")]
       [Node.text (getLocalizedText title lang)]]

/-- The entry list of `CVRenderer.generateTableOfContents`: one entry per
top-level block of type `section` with a truthy title, in document order. -/
def tocItems (lang : String) : BlockSeq → List Node
  | BlockSeq.nil => []
  | BlockSeq.cons b bs =>
    (match b with
     | Block.sect title _ => if ltTruthy title then [tocItemNode lang title] else []
     | _ => []) ++ tocItems lang bs

/-- The table-of-contents container built over a top-level block array. -/
def tocOfBlocks (lang : String) (bs : BlockSeq) : Node :=
  Node.elem "div" [("class", "cv-toc")]
    [Node.elem "h3" [("class", "toc-title")] [Node.text "Table of Contents"],
     Node.elem "ul" [("class", "toc-list")] (tocItems lang bs)]

/-- The dynamic value found in a document's `blocks` property: absent, a
string (the claim's non-array example), or an actual array. -/
inductive JsBlocks where
  | undef
  | jstr (s : String)
  | arr (bs : BlockSeq)

/-- A CV document object. -/
structure CVData where
  blocks : JsBlocks

/-- JS truthiness of the `blocks` property. -/
def blocksTruthy : JsBlocks → Bool
  | JsBlocks.undef => false
  | JsBlocks.jstr s => decide (s ≠ "")
  | JsBlocks.arr _ => true

/-- How a render pass fails: the explicit `"Invalid CV data structure"`
throw, or a runtime `TypeError` (calling `forEach` on a non-array). -/
inductive RenderError where
  | invalidData
  | typeError (msg : String)

/-- The `{ toc, content }` object returned by `renderCV`. -/
structure RenderedOutput where
  toc : Option Node
  content : Node

/-- `CVRenderer.generateTableOfContents`: returns `null` for a falsy
document or falsy `blocks`; otherwise iterates `cvData.blocks.forEach`,
which on a truthy non-array raises a `TypeError`. -/
def generateTableOfContents (lang : String) (cvData : Option CVData) :
    Except RenderError (Option Node) :=
  match cvData with
  | none => Except.ok none
  | some cv =>
    if blocksTruthy cv.blocks then
      match cv.blocks with
      | JsBlocks.arr bs => Except.ok (some (tocOfBlocks lang bs))
      | _ => Except.error (RenderError.typeError "cvData.blocks.forEach is not a function")
    else Except.ok none

/-- `CVRenderer.renderCV`: throws `invalidData` only when the document or
its `blocks` property is falsy; otherwise builds the outline (which may
raise a `TypeError` on a truthy non-array), then renders the top-level
blocks in order behind an `Array.isArray` guard, skipping none results. -/
def renderCV (lang : String) (cvData : Option CVData) :
    Except RenderError RenderedOutput :=
  match cvData with
  | none => Except.error RenderError.invalidData
  | some cv =>
    if blocksTruthy cv.blocks then
      match generateTableOfContents lang (some cv) with
      | Except.error e => Except.error e
      | Except.ok toc =>
        Except.ok
          { toc := toc,
            content := Node.elem "div" [("class", "cv-document")]
              (match cv.blocks with
               | JsBlocks.arr bs => (renderChildren lang bs).1
               | _ => []) }
    else Except.error RenderError.invalidData

/-- The anchor hrefs of a built table of contents, read back from the
presentational tree: the link in each item of the entry list. -/
def tocLinkHrefs (toc : Node) : List String :=
  match (nodeChildren toc).drop 1 with
  | [ul] =>
    (nodeChildren ul).filterMap
      (fun li => ((nodeChildren li).head?).bind (attrGet "href"))
  | _ => []

/-- The anchor ids assigned by the section renderer, read back from the
rendered top-level blocks: the `id` attribute of every rendered section
with a truthy title, in document order. -/
def sectionIdsOf (lang : String) : BlockSeq → List String
  | BlockSeq.nil => []
  | BlockSeq.cons b bs =>
    (match b with
     | Block.sect title blocks =>
       if ltTruthy title then
         (match (renderBlock lang (Block.sect title blocks)).1 with
          | some n => (attrGet "id" n).toList
          | none => [])
       else []
     | _ => []) ++ sectionIdsOf lang bs

/-! ## More helper lemmas -/

theorem renderBlock_unknown_fst (lang t : String) :
    (renderBlock lang (Block.unknown t)).1 = none := by
  by_cases h : t = "" <;> simp [renderBlock, h]

theorem renderChildren_skip_unknown (lang t : String) (post : BlockSeq) :
    (pre : BlockSeq) →
      (renderChildren lang (pre.append (BlockSeq.cons (Block.unknown t) post))).1 =
      (renderChildren lang (pre.append post)).1
  | BlockSeq.nil => by
    simp [BlockSeq.append, renderChildren, renderBlock_unknown_fst lang t]
  | BlockSeq.cons b bs => by
    have ih := renderChildren_skip_unknown lang t post bs
    simp [BlockSeq.append, renderChildren, ih]

theorem tocItems_hrefs (lang : String) :
    (bs : BlockSeq) →
      (tocItems lang bs).filterMap
        (fun li => ((nodeChildren li).head?).bind (attrGet "href")) =
      (sectionIdsOf lang bs).map (fun i => "#" ++ i)
  | BlockSeq.nil => rfl
  | BlockSeq.cons b bs => by
    have ih := tocItems_hrefs lang bs
    cases b
    case sect title blocks =>
      by_cases ht : ltTruthy title
      · simp only [tocItems, sectionIdsOf, ht, if_true, List.filterMap_append,
          List.map_append, ih]
        congr 1
        simp [tocItemNode, nodeChildren, attrGet, attrsGet, renderBlock,
          sectAttrs, ht]
      · simp [tocItems, sectionIdsOf, ht, ih]
    all_goals simp [tocItems, sectionIdsOf, ih]

theorem contactField_collapse (lang label : String) (f : Option LocalizedText) :
    (if ltTruthy f then
       (if getLocalizedText f lang = "" then []
        else [label ++ getLocalizedText f lang])
     else []) =
    (if getLocalizedText f lang = "" then []
     else [label ++ getLocalizedText f lang]) := by
  cases f with
  | none => simp [ltTruthy, getLocalizedText]
  | some lt =>
    cases lt with
    | str s =>
      by_cases hs : s = ""
      · subst hs; simp [ltTruthy, getLocalizedText]
      · simp [ltTruthy, getLocalizedText, hs]
    | map entries => simp [ltTruthy]

/-! ## Claim C3 -/

/-- C3: the invalid-document error is raised only when `blocks` is falsy
(absent or empty string), not whenever it is not a sequence.  The document
whose `blocks` is the truthy string `"not-an-array"` passes the validity
check and instead crashes inside table-of-contents generation with a
`TypeError` (`forEach` is not a function on a string) — not the
invalid-document condition the claim and the class's own `validateCVData`
describe.  An absent document or `blocks` does raise the invalid-document
error, and an empty array renders successfully with empty content and a
zero-entry outline. -/
theorem renderCV_blocks_validation :
    renderCV "en" (some { blocks := JsBlocks.jstr "not-an-array" }) =
      Except.error (RenderError.typeError "cvData.blocks.forEach is not a function") ∧
    ¬ renderCV "en" (some { blocks := JsBlocks.jstr "not-an-array" }) =
      Except.error RenderError.invalidData ∧
    renderCV "en" none = Except.error RenderError.invalidData ∧
    renderCV "en" (some { blocks := JsBlocks.undef }) =
      Except.error RenderError.invalidData ∧
    renderCV "en" (some { blocks := JsBlocks.arr BlockSeq.nil }) =
      Except.ok { toc := some (tocOfBlocks "en" BlockSeq.nil),
                  content := Node.elem "div" [("class", "cv-document")] [] } ∧
    tocItems "en" BlockSeq.nil = [] := by
  refine ⟨rfl, ?_, rfl, rfl, rfl, rfl⟩
  intro h
  exact RenderError.noConfusion (Except.error.inj h)

/-! ## Claim C6 -/

/-- C6: the anchor href of every table-of-contents entry equals the hash
sign followed by the anchor id that `renderSection` assigns to the
corresponding top-level section element — the two independently duplicated
slug computations agree, entry by entry, in document order; a section
without a title contributes no outline entry but is still rendered (the
dispatcher returns a node for every section). -/
theorem toc_anchor_agreement :
    ∀ (lang : String) (bs : BlockSeq),
      tocLinkHrefs (tocOfBlocks lang bs) =
        (sectionIdsOf lang bs).map (fun i => "#" ++ i) ∧
      (∀ blocks : BlockSeq,
         tocItems lang (BlockSeq.cons (Block.sect none blocks) BlockSeq.nil) = []) ∧
      (∀ (title : Option LocalizedText) (blocks : BlockSeq),
         ((renderBlock lang (Block.sect title blocks)).1).isSome = true) := by
  intro lang bs
  refine ⟨?_, ?_, ?_⟩
  · show (tocItems lang bs).filterMap
        (fun li => ((nodeChildren li).head?).bind (attrGet "href")) =
      (sectionIdsOf lang bs).map (fun i => "#" ++ i)
    exact tocItems_hrefs lang bs
  · intro blocks; simp [tocItems, ltTruthy]
  · intro title blocks; simp [renderBlock]

/-! ## Claim C7 -/

/-- C7: a rendered section is the section element whose children are the
optional title element followed by the children rendered, in input order,
by the same recursive dispatcher (`renderBlock` via `renderChildren`),
appending each non-none result; a titleless section still renders all its
children; concretely, a section holding a subsection holding a paragraph
renders three levels deep in input order, and removing the outer title
keeps the nested children intact. -/
theorem renderSection_children_order :
    (∀ (lang : String) (title : Option LocalizedText) (bs : BlockSeq),
       (renderBlock lang (Block.sect title bs)).1 =
         some (Node.elem "div" (sectAttrs lang title)
           (sectTitleNodes lang title ++ (renderChildren lang bs).1))) ∧
    (∀ (lang : String) (bs : BlockSeq),
       (renderBlock lang (Block.sect none bs)).1 =
         some (Node.elem "div" [("class", "cv-section")] (renderChildren lang bs).1)) ∧
    (renderBlock "en"
        (Block.sect (some (LocalizedText.str "Outer"))
          (BlockSeq.cons
            (Block.subsect (some (LocalizedText.str "Inner"))
              (BlockSeq.cons (Block.paragraph (some (LocalizedText.str "Hi")))
                BlockSeq.nil))
            BlockSeq.nil))).1 =
      some (Node.elem "div" [("class", "cv-section"), ("id", "outer")]
        [Node.elem "h2" [("class", "section-title")]
           [Node.raw "Outer",
            Node.elem "a"
              [("href", "#outer"), ("class", "section-hash-link"),
               ("title", "Link to Outer")]
              [Node.raw "#"]],
         Node.elem "div" [("class", "cv-subsection")]
           [Node.elem "h3" [("class", "subsection-title")] [Node.raw "Inner"],
            Node.elem "p" [("class", "cv-paragraph")] [Node.raw "Hi"]]]) ∧
    (renderBlock "en"
        (Block.sect none
          (BlockSeq.cons
            (Block.subsect (some (LocalizedText.str "Inner"))
              (BlockSeq.cons (Block.paragraph (some (LocalizedText.str "Hi")))
                BlockSeq.nil))
            BlockSeq.nil))).1 =
      some (Node.elem "div" [("class", "cv-section")]
        [Node.elem "div" [("class", "cv-subsection")]
           [Node.elem "h3" [("class", "subsection-title")] [Node.raw "Inner"],
            Node.elem "p" [("class", "cv-paragraph")] [Node.raw "Hi"]]]) := by
  refine ⟨fun lang title bs => rfl, fun lang bs => rfl, rfl, rfl⟩

/-! ## Claim C8 -/

/-- C8 counterexample: a list block with an empty `items` array does not
render the title alone — the unordered-list element is appended
unconditionally whenever `items` is an array, so an empty (childless) `ul`
container appears after the title. -/
theorem renderList_empty_items_has_ul :
    renderList "en" (some (LocalizedText.str "T")) (some []) =
      Node.elem "div" [("class", "cv-list")]
        [Node.elem "div" [("class", "list-title")] [Node.raw "T"],
         Node.elem "ul" [] []] ∧
    Node.elem "ul" [] [] ∈
      nodeChildren (renderList "en" (some (LocalizedText.str "T")) (some [])) := by
  refine ⟨rfl, ?_⟩
  have h : nodeChildren (renderList "en" (some (LocalizedText.str "T")) (some [])) =
      [Node.elem "div" [("class", "list-title")] [Node.raw "T"],
       Node.elem "ul" [] []] := rfl
  rw [h]
  exact List.mem_cons_of_mem _ (List.mem_cons_self _ _)

/-- C8 (amended): a list block whose `items` field is the empty sequence
renders the title element (when the title is truthy) followed by an empty
unordered-list container — the `ul` is created and appended even when there
are no items. -/
theorem renderList_empty_items_spec :
    ∀ (lang : String) (title : Option LocalizedText),
      renderList lang title (some []) =
        Node.elem "div" [("class", "cv-list")]
          ((if ltTruthy title then
              [createElem "div" title lang [("class", "list-title")]]
            else []) ++
           [Node.elem "ul" [] []]) := by
  intro lang title
  rfl

/-! ## Claim C9 -/

/-- C9 counterexample: a block whose `type` is the empty string — a value
that is none of the seven recognized variants — returns none but emits no
diagnostic: the falsy-type guard returns before the dispatch switch whose
default case would log the warning. -/
theorem renderBlock_empty_type_no_diagnostic :
    renderBlock "en" (Block.unknown "") = (none, []) := rfl

/-- C9 (amended): a block whose type is none of the seven recognized
variants renders to none without throwing; a diagnostic naming the type is
emitted exactly when the type string is truthy (non-empty) — a missing or
empty type returns none silently; in either case the block contributes no
output and the rendered output of every sibling block is unchanged. -/
theorem renderBlock_unknown_spec :
    (∀ (lang t : String),
       renderBlock lang (Block.unknown t) =
         (none, if t = "" then [] else ["Unknown block type: " ++ t])) ∧
    (∀ (lang t : String) (pre post : BlockSeq),
       (renderChildren lang (pre.append (BlockSeq.cons (Block.unknown t) post))).1 =
         (renderChildren lang (pre.append post)).1) := by
  constructor
  · intro lang t
    by_cases h : t = "" <;> simp [renderBlock, h]
  · intro lang t pre post
    exact renderChildren_skip_unknown lang t post pre

/-! ## Claim C10 -/

/-- C10: a contact field that is present but resolves to the empty string
is omitted from the joined contact line exactly as an absent field would
be: each labelled entry is contributed precisely when the field's resolved
text is non-empty, so the contact line depends only on the three resolved
texts. -/
theorem renderContact_empty_field_omitted :
    ∀ (lang : String) (e p l : Option LocalizedText),
      renderContact lang { email := e, phone := p, location := l } =
        Node.elem "div" [("class", "cv-contact")]
          [Node.text (String.intercalate " | "
            ((if getLocalizedText e lang = "" then []
              else ["Email: " ++ getLocalizedText e lang]) ++
             (if getLocalizedText p lang = "" then []
              else ["Phone: " ++ getLocalizedText p lang]) ++
             (if getLocalizedText l lang = "" then []
              else ["Location: " ++ getLocalizedText l lang])))] := by
  intro lang e p l
  simp only [renderContact, contactItems]
  rw [contactField_collapse lang "Email: " e,
    contactField_collapse lang "Phone: " p,
    contactField_collapse lang "Location: " l]
